import Mathlib

/-!
# fairseq2.cpp (ggml/examples/unity): parameter registry, module builders, head reshape

A shallow embedding of `src/ggml/examples/unity/fairseq2.cpp`.

* Byte-footprint functions (`Linear_size`, `LayerNorm_size`,
  `StandardFeedForwardNetwork_size`) are embedded with the C++ integer widths:
  `int32_t` products wrap at 32 bits, `std::size_t` arithmetic wraps at 64 bits.
* The parameter registry `model.tensors` is a `std::map<std::string, ggml_tensor*>`;
  it is embedded as a finite-support function from keys to optional handles, with
  the three operations the source uses: `find`, `operator[]` as an assignment
  target, and `operator[]` as a read (which default-inserts a null handle when the
  key is absent).
* Tensor handles built by the kernel engine are embedded as graph nodes: a node is
  either a freshly created tensor (identified by its allocation index in the
  context, with its extents) or an operation applied to source nodes.  A kernel
  operation applied to a null handle dereferences it; this is recorded as the
  failure `NullDeref`.
* For the head split / merge the tensors are embedded one level lower, as strided
  views over a buffer (`strided_tensor`), so that values can be compared index by
  index.
-/

namespace Fairseq2

/-! ## Machine integers -/

/-- Wrap (two-complement) of a mathematical integer to the range of `int32_t`. -/
def wrap_int32 (x : Int) : Int := (x + 2 ^ 31) % 2 ^ 32 - 2 ^ 31

/-- Conversion of an `int` operand to `std::size_t` (64 bits): reduction modulo `2^64`. -/
def to_size_t (x : Int) : Nat := (x % 2 ^ 64).toNat

/-- Multiplication in `std::size_t`. -/
def size_t_mul (a b : Nat) : Nat := (a * b) % 2 ^ 64

/-- Addition in `std::size_t`. -/
def size_t_add (a b : Nat) : Nat := (a + b) % 2 ^ 64

/-- Modelled from the spec: `ggml_type_size(GGML_TYPE_F32)` is declared in `ggml.h`,
which is not among the sources; the spec fixes the element width of a
single-precision float at 4 bytes. -/
def ggml_type_size_F32 : Nat := 4

/-! ## Byte footprints -/

/-- Embedding of `Linear_size` (fairseq2.cpp:37-41).  `input_dim * output_dim` is an
`int32_t` product, evaluated in `int` before it is converted to `std::size_t` for the
multiplication by the element size. -/
def Linear_size (input_dim output_dim : Int) : Nat :=
  size_t_add
    (size_t_mul (to_size_t (wrap_int32 (input_dim * output_dim))) ggml_type_size_F32)
    (size_t_mul (to_size_t output_dim) ggml_type_size_F32)

/-- Embedding of `LayerNorm_size` (fairseq2.cpp:78-81): `2 * dim` is an `int` product. -/
def LayerNorm_size (dim : Int) : Nat :=
  size_t_mul (to_size_t (wrap_int32 (2 * dim))) ggml_type_size_F32

/-- Embedding of `StandardFeedForwardNetwork_size` (fairseq2.cpp:113-116). -/
def StandardFeedForwardNetwork_size (dim inner_dim : Int) : Nat :=
  size_t_add
    (size_t_add (LayerNorm_size dim) (Linear_size dim inner_dim))
    (Linear_size inner_dim dim)

/-! ## Tensor handles as graph nodes -/

/-- The four extents `ne[0..3]` of a tensor (`ne[0]` is the innermost one). -/
structure Extents where
  ne0 : Int
  ne1 : Int
  ne2 : Int
  ne3 : Int
  deriving DecidableEq, Repr

/-- Modelled from the spec: a tensor object of the graph-building context (the kernel
engine is taken as given, its operations as graph constructors).  `new_tensor id ne` is a tensor
created by `ggml_new_tensor_{1,2,3}d`, `id` being its allocation index in the context;
the other constructors are the kernel operations used by the forward functions,
kept uninterpreted. -/
inductive ggml_tensor where
  | new_tensor (id : Nat) (ne : Extents)
  | mul_mat (a b : ggml_tensor)
  | add (a b : ggml_tensor)
  | mul (a b : ggml_tensor)
  | relu (a : ggml_tensor)
  | norm (a : ggml_tensor)
  | rep (a b : ggml_tensor)
  deriving DecidableEq, Repr

/-- A `ggml_tensor*`: `none` is the null pointer. -/
abbrev tensor_ptr := Option ggml_tensor

/-- Extents of a graph node: a created tensor carries its own; `mul_mat a b` has extents
`[a.ne[1], b.ne[1], b.ne[2], b.ne[3]]`; element-wise operations keep the extents of
their first operand and `rep a b` takes those of `b`. -/
def ggml_tensor.ne : ggml_tensor → Extents
  | .new_tensor _ ne => ne
  | .mul_mat a b => ⟨a.ne.ne1, b.ne.ne1, b.ne.ne2, b.ne.ne3⟩
  | .add a _ => a.ne
  | .mul a _ => a.ne
  | .relu a => a.ne
  | .norm a => a.ne
  | .rep _ b => b.ne

/-- How a call can end without a result.  `KeyNotFound` and `ShapeMismatch` are the
error values named by the specification; `NullDeref`, `AssertFailed` and `DivByZero`
are the ways the C++ code and the kernel engine actually stop (dereference of a null
handle, a failed `GGML_ASSERT`, an integer division by zero). -/
inductive Failure where
  | KeyNotFound
  | ShapeMismatch
  | NullDeref
  | AssertFailed
  | DivByZero
  deriving DecidableEq, Repr

/-- Modelled from the spec: the graph-building context `ggml_context` of the kernel
engine: only the number of objects allocated so
far is kept, which gives each created tensor its identity. -/
structure ggml_context where
  n_objects : Nat
  deriving DecidableEq, Repr

/-- Modelled from the spec: `ggml_new_tensor_1d(ctx, GGML_TYPE_F32, ne0)` of the kernel
engine creates a tensor of extents `[ne0, 1, 1, 1]`. -/
def ggml_new_tensor_1d (ctx : ggml_context) (ne0 : Int) : ggml_tensor × ggml_context :=
  (.new_tensor ctx.n_objects ⟨ne0, 1, 1, 1⟩, ⟨ctx.n_objects + 1⟩)

/-- Modelled from the spec: `ggml_new_tensor_2d(ctx, GGML_TYPE_F32, ne0, ne1)` of the
kernel engine creates a tensor of extents `[ne0, ne1, 1, 1]`. -/
def ggml_new_tensor_2d (ctx : ggml_context) (ne0 ne1 : Int) : ggml_tensor × ggml_context :=
  (.new_tensor ctx.n_objects ⟨ne0, ne1, 1, 1⟩, ⟨ctx.n_objects + 1⟩)

/-- Modelled from the spec: `ggml_new_tensor_3d(ctx, GGML_TYPE_F32, ne0, ne1, ne2)` of
the kernel engine creates a tensor of extents `[ne0, ne1, ne2, 1]`. -/
def ggml_new_tensor_3d (ctx : ggml_context) (ne0 ne1 ne2 : Int) :
    ggml_tensor × ggml_context :=
  (.new_tensor ctx.n_objects ⟨ne0, ne1, ne2, 1⟩, ⟨ctx.n_objects + 1⟩)

/-- Modelled from the spec: the shape precondition of the matrix
multiply of the kernel engine (`ggml_mul_mat`, declared in `ggml.h`, not among the sources):
`mul_mat(a, b)` requires `a.ne[0] == b.ne[0]`. -/
def ggml_can_mul_mat (a b : ggml_tensor) : Bool :=
  decide (a.ne.ne0 = b.ne.ne0)

/-- Modelled from the spec: `ggml_mul_mat(ctx, a, b)`; it reads the extents of both
operands (a null operand is dereferenced), asserts `ggml_can_mul_mat` and yields a node
of extents `[a.ne[1], b.ne[1], ..]`. -/
def ggml_mul_mat (a b : tensor_ptr) : Except Failure ggml_tensor :=
  match a, b with
  | some a, some b =>
    if ggml_can_mul_mat a b then .ok (.mul_mat a b) else .error .AssertFailed
  | _, _ => .error .NullDeref

/-- Modelled from the spec: `ggml_add(ctx, a, b)`, element-wise addition node. -/
def ggml_add (a b : tensor_ptr) : Except Failure ggml_tensor :=
  match a, b with
  | some a, some b => .ok (.add a b)
  | _, _ => .error .NullDeref

/-- Modelled from the spec: `ggml_mul(ctx, a, b)`, element-wise product node. -/
def ggml_mul (a b : tensor_ptr) : Except Failure ggml_tensor :=
  match a, b with
  | some a, some b => .ok (.mul a b)
  | _, _ => .error .NullDeref

/-- Modelled from the spec: `ggml_repeat(ctx, a, b)`, broadcast of `a` to the shape of `b`. -/
def ggml_repeat (a b : tensor_ptr) : Except Failure ggml_tensor :=
  match a, b with
  | some a, some b => .ok (.rep a b)
  | _, _ => .error .NullDeref

/-- Modelled from the spec: `ggml_relu(ctx, a)`, rectified-linear activation node. -/
def ggml_relu (a : tensor_ptr) : Except Failure ggml_tensor :=
  match a with
  | some a => .ok (.relu a)
  | none => .error .NullDeref

/-- Modelled from the spec: `ggml_norm(ctx, a, 1e-5)`, normalisation node (the epsilon
is the fixed constant of the source). -/
def ggml_norm (a : tensor_ptr) : Except Failure ggml_tensor :=
  match a with
  | some a => .ok (.norm a)
  | none => .error .NullDeref

/-! ## The parameter registry -/

/-- Modelled from the spec: the registry `model.tensors`, a mapping from string key to
tensor handle (a `std::map<std::string, ggml_tensor*>` declared in `fairseq2.h`): a key is
either absent (`none`) or bound to a handle, which may be null (`some none`). -/
def Registry := String → Option tensor_ptr

/-- The registry with no key. -/
def Registry.empty : Registry := fun _ => none

/-- `tensors.find(key)`: `none` stands for `tensors.end()`. -/
def Registry.find (m : Registry) (key : String) : Option tensor_ptr := m key

/-- `tensors[key] = value`. -/
def Registry.assign (m : Registry) (key : String) (value : tensor_ptr) : Registry :=
  fun k => if k = key then some value else m k

/-- `tensors[key]` read as a value: when the key is absent `std::map::operator[]`
inserts it bound to a value-initialised (null) handle and returns that. -/
def Registry.index (m : Registry) (key : String) : tensor_ptr × Registry :=
  match m key with
  | some v => (v, m)
  | none => (none, m.assign key none)

/-- Modelled from the spec: the parts of `fairseq2_model` (declared in `fairseq2.h`)
used by the module builders: the graph-building context and the registry. -/
structure fairseq2_model where
  ctx : ggml_context
  tensors : Registry

/-! ## Linear -/

/-- Modelled from the spec: the module descriptor `Linear` (declared in `fairseq2.h`),
a weight handle and a bias handle. -/
structure Linear where
  weight : tensor_ptr
  bias : tensor_ptr
  deriving DecidableEq, Repr

/-- Embedding of `Linear_init` (fairseq2.cpp:43-57). -/
def Linear_init (self : Linear) (model : fairseq2_model) (pfx : String)
    (input_dim output_dim : Int) (bias : Bool) : Linear × fairseq2_model :=
  let w := ggml_new_tensor_2d model.ctx output_dim input_dim
  let self1 : Linear := { self with weight := some w.1 }
  let model1 : fairseq2_model :=
    { ctx := w.2, tensors := model.tensors.assign (pfx ++ ".weight") self1.weight }
  if bias then
    let b := ggml_new_tensor_1d model1.ctx output_dim
    let self2 : Linear := { self1 with bias := some b.1 }
    (self2,
      { ctx := b.2, tensors := model1.tensors.assign (pfx ++ ".inner_proj.bias") self2.bias })
  else
    (self1, model1)

/-- Embedding of `Linear_forward` (fairseq2.cpp:59-74).  The result pairs the outcome
of the call with the model as the call leaves it. -/
def Linear_forward (model : fairseq2_model) (pfx : String) (input : tensor_ptr) :
    Except Failure ggml_tensor × fairseq2_model :=
  let weight := model.tensors.index (pfx ++ ".weight")
  let bias := weight.2.index (pfx ++ ".bias")
  let model1 : fairseq2_model := { model with tensors := bias.2 }
  (match ggml_mul_mat weight.1 input with
    | .ok mm => ggml_add (some mm) bias.1
    | .error e => .error e,
   model1)

/-! ## LayerNorm -/

/-- Modelled from the spec: the module descriptor `LayerNorm` (declared in
`fairseq2.h`), a weight handle and a bias handle. -/
structure LayerNorm where
  weight : tensor_ptr
  bias : tensor_ptr
  deriving DecidableEq, Repr

/-- Embedding of `LayerNorm_init` (fairseq2.cpp:83-93). -/
def LayerNorm_init (self : LayerNorm) (model : fairseq2_model) (pfx : String)
    (dim : Int) : LayerNorm × fairseq2_model :=
  let w := ggml_new_tensor_1d model.ctx dim
  let self1 : LayerNorm := { self with weight := some w.1 }
  let tensors1 := model.tensors.assign (pfx ++ ".weight") self1.weight
  let b := ggml_new_tensor_1d w.2 dim
  let self2 : LayerNorm := { self1 with bias := some b.1 }
  (self2, { ctx := b.2, tensors := tensors1.assign (pfx ++ ".bias") self2.bias })

/-- Embedding of `LayerNorm_forward` (fairseq2.cpp:95-110). -/
def LayerNorm_forward (model : fairseq2_model) (pfx : String) (input : tensor_ptr) :
    Except Failure ggml_tensor × fairseq2_model :=
  let weight := model.tensors.index (pfx ++ ".weight")
  let bias := weight.2.index (pfx ++ ".bias")
  let model1 : fairseq2_model := { model with tensors := bias.2 }
  (match ggml_norm input with
    | .error e => .error e
    | .ok input1 =>
      match ggml_repeat weight.1 (some input1) with
      | .error e => .error e
      | .ok rw =>
        match ggml_mul (some rw) (some input1) with
        | .error e => .error e
        | .ok scaled =>
          match ggml_repeat bias.1 (some input1) with
          | .error e => .error e
          | .ok rb => ggml_add (some scaled) (some rb),
   model1)

/-! ## StandardFeedForwardNetwork -/

/-- Modelled from the spec: the module descriptor `StandardFeedForwardNetwork`
(declared in `fairseq2.h`), with the three sub-modules the source initialises. -/
structure StandardFeedForwardNetwork where
  inner_proj : Linear
  inner_layer_norm : LayerNorm
  output_proj : Linear
  deriving DecidableEq, Repr

/-- Embedding of `StandardFeedForwardNetwork_init` (fairseq2.cpp:118-128). -/
def StandardFeedForwardNetwork_init (self : StandardFeedForwardNetwork)
    (model : fairseq2_model) (pfx : String) (model_dim inner_dim : Int) :
    StandardFeedForwardNetwork × fairseq2_model :=
  let r1 := Linear_init self.inner_proj model (pfx ++ ".inner_proj") model_dim inner_dim true
  let r2 := LayerNorm_init self.inner_layer_norm r1.2 (pfx ++ ".inner_layer_norm") inner_dim
  let r3 := Linear_init self.output_proj r2.2 (pfx ++ ".output_proj") inner_dim model_dim true
  ({ inner_proj := r1.1, inner_layer_norm := r2.1, output_proj := r3.1 }, r3.2)

/-- Embedding of `StandardFeedForwardNetwork_forward` (fairseq2.cpp:130-148).  A call
that stops (null dereference or failed assertion inside the kernel engine) ends the
forward pass with the model as it was at that point. -/
def StandardFeedForwardNetwork_forward (model : fairseq2_model) (pfx : String)
    (seqs : tensor_ptr) : Except Failure ggml_tensor × fairseq2_model :=
  match Linear_forward model (pfx ++ ".inner_proj") seqs with
  | (.error e, model1) => (.error e, model1)
  | (.ok seqs1, model1) =>
    match ggml_relu (some seqs1) with
    | .error e => (.error e, model1)
    | .ok seqs2 =>
      let normed : Except Failure ggml_tensor × fairseq2_model :=
        if (model1.tensors.find (pfx ++ ".inner_layer_norm.weight")).isSome then
          LayerNorm_forward model1 (pfx ++ ".inner_layer_norm") (some seqs2)
        else
          (.ok seqs2, model1)
      match normed with
      | (.error e, model2) => (.error e, model2)
      | (.ok seqs3, model2) => Linear_forward model2 (pfx ++ ".output_proj") (some seqs3)

/-! ## MultiheadAttention -/

/-- Modelled from the spec: the module descriptor `MultiheadAttention` is declared in
`fairseq2.h`, which is not among the sources; the fields are those the
source assigns (`q_proj`, `k_proj`, `v_proj`, `bias_k`, `bias_v`) and the output
projection the forward pass applies. -/
structure MultiheadAttention where
  q_proj : Linear
  k_proj : Linear
  v_proj : Linear
  bias_k : tensor_ptr
  bias_v : tensor_ptr
  output_proj : Linear
  deriving DecidableEq, Repr

/-- Embedding of `MultiheadAttention_init` (fairseq2.cpp:150-169).  The `int` quotient
truncates toward zero and the `int` products wrap at 32 bits; a zero `num_heads`
stops at the first division, before anything is created. -/
def MultiheadAttention_init (self : MultiheadAttention) (model : fairseq2_model)
    (pfx : String) (model_dim num_heads : Int) :
    Except Failure (MultiheadAttention × fairseq2_model) :=
  if num_heads = 0 then .error .DivByZero
  else
    let bias : Bool := true
    let num_key_value_heads := num_heads
    let head_dim := Int.tdiv model_dim num_heads
    let q := Linear_init self.q_proj model (pfx ++ ".q_proj") model_dim model_dim bias
    let k := Linear_init self.k_proj q.2 (pfx ++ ".k_proj") model_dim
      (wrap_int32 (head_dim * num_key_value_heads)) bias
    let v := Linear_init self.v_proj k.2 (pfx ++ ".v_proj") model_dim model_dim bias
    let bk := ggml_new_tensor_3d v.2.ctx num_heads 1
      (Int.tdiv (wrap_int32 (head_dim * num_key_value_heads)) num_heads)
    let bv := ggml_new_tensor_3d bk.2 num_heads 1 (Int.tdiv model_dim num_heads)
    .ok ({ self with q_proj := q.1, k_proj := k.1, v_proj := v.1,
                     bias_k := some bk.1, bias_v := some bv.1 },
         { ctx := bv.2, tensors := v.2.tensors })

/-- The registry keys read by one call `Linear_forward(model, pfx, input)`
(fairseq2.cpp:66-67). -/
def Linear_forward_keys (pfx : String) : List String :=
  [pfx ++ ".weight", pfx ++ ".bias"]

/-- The registry keys read by `MultiheadAttention_forward(model, pfx, ...)`: its only
registry accesses are the four `Linear_forward` calls at fairseq2.cpp:196, 198, 200
and 210. -/
def MultiheadAttention_forward_keys (pfx : String) : List String :=
  Linear_forward_keys (pfx ++ ".q_proj") ++ Linear_forward_keys (pfx ++ ".k_proj")
    ++ Linear_forward_keys (pfx ++ ".v_proj") ++ Linear_forward_keys (pfx ++ ".output_proj")

/-! ## Tensors as strided views (head split and merge) -/

/-- Modelled from the spec: a tensor as the kernel engine lays it out: extents `ne`, strides `nb` (counted in
elements; the kernel stores them in bytes, 4 per element) and the buffer it views,
addressed by element offset. -/
structure strided_tensor (α : Type) where
  ne : Extents
  nb : Extents
  data : Int → α

/-- The element of `t` at the index `(i0, i1, i2, i3)`. -/
def strided_tensor.get {α : Type} (t : strided_tensor α) (i0 i1 i2 i3 : Int) : α :=
  t.data (i0 * t.nb.ne0 + i1 * t.nb.ne1 + i2 * t.nb.ne2 + i3 * t.nb.ne3)

/-- Assignment `e[i] = v` on a four-entry array; an index outside `0..3` leaves it
unchanged (the callers assert the range first). -/
def Extents.set (e : Extents) (i : Int) (v : Int) : Extents :=
  if i = 0 then { e with ne0 := v }
  else if i = 1 then { e with ne1 := v }
  else if i = 2 then { e with ne2 := v }
  else if i = 3 then { e with ne3 := v }
  else e

/-- The strides of a packed tensor of extents `ne`. -/
def contiguous_strides (ne : Extents) : Extents :=
  ⟨1, ne.ne0, ne.ne0 * ne.ne1, ne.ne0 * ne.ne1 * ne.ne2⟩

/-- Modelled from the spec: `ggml_is_contiguous`, the packed-layout test of the kernel
engine. -/
def ggml_is_contiguous {α : Type} (t : strided_tensor α) : Bool :=
  decide (t.nb.ne0 = 1) && decide (t.nb.ne1 = t.nb.ne0 * t.ne.ne0)
    && decide (t.nb.ne2 = t.nb.ne1 * t.ne.ne1) && decide (t.nb.ne3 = t.nb.ne2 * t.ne.ne2)

/-- Modelled from the spec: `ggml_nelements`, the number of elements of a tensor. -/
def ggml_nelements {α : Type} (t : strided_tensor α) : Int :=
  t.ne.ne0 * t.ne.ne1 * t.ne.ne2 * t.ne.ne3

/-- Modelled from the spec: `ggml_reshape_3d(ctx, a, ne0, ne1, ne2)` reinterprets a
packed tensor with new extents without copying; it asserts that `a` is packed and
that the element counts agree. -/
def ggml_reshape_3d {α : Type} (a : strided_tensor α) (ne0 ne1 ne2 : Int) :
    Except Failure (strided_tensor α) :=
  if ggml_is_contiguous a && decide (ggml_nelements a = ne0 * ne1 * ne2) then
    .ok { ne := ⟨ne0, ne1, ne2, 1⟩, nb := contiguous_strides ⟨ne0, ne1, ne2, 1⟩,
          data := a.data }
  else .error .AssertFailed

/-- Modelled from the spec: `ggml_reshape_2d(ctx, a, ne0, ne1)`, as `ggml_reshape_3d`. -/
def ggml_reshape_2d {α : Type} (a : strided_tensor α) (ne0 ne1 : Int) :
    Except Failure (strided_tensor α) :=
  if ggml_is_contiguous a && decide (ggml_nelements a = ne0 * ne1) then
    .ok { ne := ⟨ne0, ne1, 1, 1⟩, nb := contiguous_strides ⟨ne0, ne1, 1, 1⟩,
          data := a.data }
  else .error .AssertFailed

/-- Modelled from the spec: `ggml_permute(ctx, a, axis0, axis1, axis2, axis3)` is a view
of `a` in which axis `i` of `a` becomes axis `axis_i`; it asserts that the four axes
are in range and pairwise distinct.  No data moves. -/
def ggml_permute {α : Type} (a : strided_tensor α) (axis0 axis1 axis2 axis3 : Int) :
    Except Failure (strided_tensor α) :=
  if decide (0 ≤ axis0 ∧ axis0 < 4 ∧ 0 ≤ axis1 ∧ axis1 < 4 ∧ 0 ≤ axis2 ∧ axis2 < 4
      ∧ 0 ≤ axis3 ∧ axis3 < 4)
    && decide (axis0 ≠ axis1 ∧ axis0 ≠ axis2 ∧ axis0 ≠ axis3 ∧ axis1 ≠ axis2
      ∧ axis1 ≠ axis3 ∧ axis2 ≠ axis3) then
    .ok { ne := (((a.ne.set axis0 a.ne.ne0).set axis1 a.ne.ne1).set axis2 a.ne.ne2).set
                  axis3 a.ne.ne3,
          nb := (((a.nb.set axis0 a.nb.ne0).set axis1 a.nb.ne1).set axis2 a.nb.ne2).set
                  axis3 a.nb.ne3,
          data := a.data }
  else .error .AssertFailed

/-- Modelled from the spec: `ggml_cont(ctx, a)` forces contiguity: a fresh packed tensor
of the same extents holding, at every index, the element `a` has there. -/
def ggml_cont {α : Type} (a : strided_tensor α) : strided_tensor α :=
  { ne := a.ne, nb := contiguous_strides a.ne,
    data := fun off =>
      a.get (off % a.ne.ne0) (off / a.ne.ne0 % a.ne.ne1)
        (off / (a.ne.ne0 * a.ne.ne1) % a.ne.ne2) (off / (a.ne.ne0 * a.ne.ne1 * a.ne.ne2)) }

/-- Embedding of `reshape_num_head` (fairseq2.cpp:171-179).  The locals `slen` and
`model_dim` are `int`: the 64-bit extents are narrowed to 32 bits. -/
def reshape_num_head {α : Type} (x : strided_tensor α) (num_heads : Int) :
    Except Failure (strided_tensor α) :=
  let slen := wrap_int32 x.ne.ne1
  let model_dim := wrap_int32 x.ne.ne0
  if num_heads = 0 then .error .DivByZero
  else
    match ggml_reshape_3d x (Int.tdiv model_dim num_heads) num_heads slen with
    | .error e => .error e
    | .ok x1 => ggml_permute x1 0 2 1 3

/-- Embedding of the head merge of `MultiheadAttention_forward` (fairseq2.cpp:207-209):
permute back, force contiguity, flatten the two inner axes. -/
def MultiheadAttention_forward_merge {α : Type} (attn : strided_tensor α)
    (num_heads head_dim slen : Int) : Except Failure (strided_tensor α) :=
  match ggml_permute attn 0 2 1 3 with
  | .error e => .error e
  | .ok attn1 => ggml_reshape_2d (ggml_cont attn1) (wrap_int32 (num_heads * head_dim)) slen

/-- The head split followed by the head merge on the same tensor, with `slen` and
`head_dim` computed from the tensor as `MultiheadAttention_forward` computes them from
its queries (fairseq2.cpp:192-194; the head count, fixed at 16 there, is left as a
parameter). -/
def head_split_merge {α : Type} (x : strided_tensor α) (num_heads : Int) :
    Except Failure (strided_tensor α) :=
  let slen := wrap_int32 x.ne.ne1
  if num_heads = 0 then .error .DivByZero
  else
    let head_dim := wrap_int32 (Int.tdiv x.ne.ne0 num_heads)
    match reshape_num_head x num_heads with
    | .error e => .error e
    | .ok heads => MultiheadAttention_forward_merge heads num_heads head_dim slen

/-- A packed two-dimensional tensor of extents `(ne0, ne1)` over the buffer `data`. -/
def packed_2d {α : Type} (ne0 ne1 : Int) (data : Int → α) : strided_tensor α :=
  { ne := ⟨ne0, ne1, 1, 1⟩, nb := contiguous_strides ⟨ne0, ne1, 1, 1⟩, data := data }

/-- The model right after `fairseq2_model_alloc`, with a fresh context bound: no key
registered, no object allocated. -/
def fairseq2_model_alloc : fairseq2_model :=
  { ctx := ⟨0⟩, tensors := Registry.empty }


/-! ## Arithmetic of the byte footprints -/

/-- A value in the range of `int32_t` is unchanged by the wrap. -/
theorem wrap_int32_of_range (x : Int) (h0 : -(2 ^ 31) ≤ x) (h1 : x < 2 ^ 31) :
    wrap_int32 x = x := by
  unfold wrap_int32
  omega

/-- C4 (as amended): for all positive `d_in`, `d_out` whose product `d_in * d_out` is
below `2^31` (it fits the `int32_t` product of the code), `Linear_size(d_in, d_out)`
is exactly `d_in*d_out*4 + d_out*4`. -/
theorem Linear_size_exact (d_in d_out : Int) (hin : 0 < d_in) (hout : 0 < d_out)
    (hprod : d_in * d_out < 2 ^ 31) :
    (Linear_size d_in d_out : Int) = d_in * d_out * 4 + d_out * 4 := by
  have hle : d_out ≤ d_in * d_out := by nlinarith
  have hw : wrap_int32 (d_in * d_out) = d_in * d_out :=
    wrap_int32_of_range _ (by omega) hprod
  unfold Linear_size
  rw [hw]
  generalize d_in * d_out = p at *
  unfold size_t_add size_t_mul to_size_t ggml_type_size_F32
  omega

/-- Witness for C4: `d_in = 3`, `d_out = 5`. -/
theorem Linear_size_exact_witness :
    (0 : Int) < 3 ∧ (0 : Int) < 5 ∧ (3 : Int) * 5 < 2 ^ 31
      ∧ (Linear_size 3 5 : Int) = 3 * 5 * 4 + 5 * 4 :=
  ⟨by decide, by decide, by decide, Linear_size_exact 3 5 (by decide) (by decide) (by decide)⟩

/-- C4 (counterexample): `d_in = d_out = 65536` are positive 32-bit integers; their
32-bit product wraps to 0, so `Linear_size` returns `65536 * 4 = 262144`, not
`65536*65536*4 + 65536*4`. -/
theorem Linear_size_overflow :
    (0 : Int) < 65536 ∧ (65536 : Int) < 2 ^ 31 ∧ Linear_size 65536 65536 = 262144
      ∧ (Linear_size 65536 65536 : Int) ≠ 65536 * 65536 * 4 + 65536 * 4 := by
  decide

/-- C3: for `d = 1`, `h = 2` the footprint `StandardFeedForwardNetwork_size(d, h)` is
36, that is `LayerNorm_size(d) + Linear_size(d, h) + Linear_size(h, d)`, whereas
`LayerNorm_size(h) + Linear_size(d, h) + Linear_size(h, d)` is 44; and
`StandardFeedForwardNetwork_init` does create the inner layer norm over `h = 2`. -/
theorem StandardFeedForwardNetwork_size_counts_model_dim :
    StandardFeedForwardNetwork_size 1 2 = 36
      ∧ LayerNorm_size 2 + Linear_size 1 2 + Linear_size 2 1 = 44
      ∧ StandardFeedForwardNetwork_size 1 2
          = LayerNorm_size 1 + Linear_size 1 2 + Linear_size 2 1
      ∧ (StandardFeedForwardNetwork_init ⟨⟨none, none⟩, ⟨none, none⟩, ⟨none, none⟩⟩
            fairseq2_model_alloc "f" 1 2).1.inner_layer_norm.weight
          = some (.new_tensor 2 ⟨2, 1, 1, 1⟩) := by
  decide


/-! ## Registry keys -/

/-- Keys with a common prefix and different suffixes are different. -/
theorem key_append_ne (p a b : String) (h : a ≠ b) : p ++ a ≠ p ++ b := by
  intro heq
  apply h
  have hd := congrArg String.data heq
  simp only [String.data_append] at hd
  exact String.ext (List.append_cancel_left hd)

theorem key_append_ne2 (p a b c d : String) (h : a ++ b ≠ c ++ d) :
    p ++ a ++ b ≠ p ++ c ++ d := by
  rw [String.append_assoc, String.append_assoc]
  exact key_append_ne p _ _ h

theorem key_append_ne3 (p a b c : String) (h : a ++ b ≠ c) : p ++ a ++ b ≠ p ++ c := by
  rw [String.append_assoc]
  exact key_append_ne p _ _ h

theorem Registry.assign_same (m : Registry) (k : String) (v : tensor_ptr) :
    (m.assign k v).find k = some v := by
  simp [Registry.assign, Registry.find]

theorem Registry.assign_other (m : Registry) (k k1 : String) (v : tensor_ptr)
    (h : k1 ≠ k) : (m.assign k v).find k1 = m.find k1 := by
  simp [Registry.assign, Registry.find, h]

/-- The handle an unchecked index returns: the binding, or null when the key is absent. -/
theorem Registry.index_fst (m : Registry) (k : String) :
    (m.index k).1 = (m.find k).join := by
  unfold Registry.index Registry.find
  cases h : m k <;> simp

/-- An unchecked index changes no handle a later unchecked index can return. -/
theorem Registry.index_snd_join (m : Registry) (k k1 : String) :
    ((m.index k).2.find k1).join = (m.find k1).join := by
  unfold Registry.index Registry.find
  cases h : m k with
  | some v => simp
  | none =>
    by_cases hk : k1 = k
    · subst hk; simp [Registry.assign, h]
    · simp [Registry.assign, hk]

theorem Registry.index_snd_other (m : Registry) (k k1 : String) (h : k1 ≠ k) :
    (m.index k).2.find k1 = m.find k1 := by
  unfold Registry.index Registry.find
  cases h1 : m k with
  | some v => simp
  | none => simp [Registry.assign, h]

theorem Registry.index_snd_of_registered (m : Registry) (k : String)
    (h : (m.find k).isSome) : (m.index k).2 = m := by
  unfold Registry.index
  unfold Registry.find at h
  cases h1 : m k with
  | some v => simp
  | none => simp [h1] at h

theorem Registry.index_snd_keeps (m : Registry) (k k1 : String) (v : tensor_ptr)
    (h : m.find k1 = some v) : (m.index k).2.find k1 = some v := by
  by_cases hk : k1 = k
  · subst hk
    rw [Registry.index_snd_of_registered m k1 (by simp [h])]
    exact h
  · rw [Registry.index_snd_other m k k1 hk]
    exact h

/-! ## Linear -/

/-- C1: at the empty registry, `Linear_init` with prefix "l", dimensions 1 and 1 and
`bias = true` binds "l.weight" to the new weight, but leaves "l.bias" unregistered:
the new bias is bound to "l.inner_proj.bias" instead. -/
theorem Linear_init_registers_bias_under_inner_proj :
    (Linear_init ⟨none, none⟩ fairseq2_model_alloc "l" 1 1 true).2.tensors.find "l.weight"
        = some (Linear_init ⟨none, none⟩ fairseq2_model_alloc "l" 1 1 true).1.weight
      ∧ (Linear_init ⟨none, none⟩ fairseq2_model_alloc "l" 1 1 true).2.tensors.find "l.bias"
        = none
      ∧ (Linear_init ⟨none, none⟩ fairseq2_model_alloc "l" 1 1 true).2.tensors.find
          "l.inner_proj.bias"
        = some (Linear_init ⟨none, none⟩ fairseq2_model_alloc "l" 1 1 true).1.bias
      ∧ (Linear_init ⟨none, none⟩ fairseq2_model_alloc "l" 1 1 true).1.bias
        = some (.new_tensor 1 ⟨1, 1, 1, 1⟩) := by
  decide

/-- C10: for `input_dim = 1`, `output_dim = 2` the weight created by `Linear_init` has
extents `[2, 1]` (innermost extent `output_dim`), so against an input of innermost
extent `input_dim = 1` the multiply precondition `weight.ne[0] == input.ne[0]` fails
and `ggml_mul_mat(weight, input)` stops on its assertion. -/
theorem Linear_init_weight_fails_mul_mat_precondition :
    (Linear_init ⟨none, none⟩ fairseq2_model_alloc "l" 1 2 true).1.weight
        = some (.new_tensor 0 ⟨2, 1, 1, 1⟩)
      ∧ ggml_can_mul_mat (.new_tensor 0 ⟨2, 1, 1, 1⟩) (.new_tensor 9 ⟨1, 1, 1, 1⟩) = false
      ∧ ggml_mul_mat (Linear_init ⟨none, none⟩ fairseq2_model_alloc "l" 1 2 true).1.weight
          (some (.new_tensor 9 ⟨1, 1, 1, 1⟩)) = .error .AssertFailed := by
  refine ⟨by decide, by decide, ?_⟩
  rfl

/-- The outcome of `Linear_forward` as a function of the two bindings it reads. -/
theorem Linear_forward_fst (model : fairseq2_model) (pfx : String) (input : tensor_ptr) :
    (Linear_forward model pfx input).1 =
      match ggml_mul_mat (model.tensors.find (pfx ++ ".weight")).join input with
      | .ok mm => ggml_add (some mm) (model.tensors.find (pfx ++ ".bias")).join
      | .error e => .error e := by
  simp only [Linear_forward, Registry.index_fst, Registry.index_snd_join]

theorem Linear_forward_snd (model : fairseq2_model) (pfx : String) (input : tensor_ptr) :
    (Linear_forward model pfx input).2.tensors =
      ((model.tensors.index (pfx ++ ".weight")).2.index (pfx ++ ".bias")).2 := by
  simp only [Linear_forward]

/-- C7 (as amended): when `pfx + ".weight"` or `pfx + ".bias"` is not registered,
`Linear_forward` signals no `KeyNotFound`: the unchecked index hands a null handle to
the kernel engine and the call stops there (null dereference, or the shape assertion
of the multiply when that comes first), producing no output tensor. -/
theorem Linear_forward_missing_key (model : fairseq2_model) (pfx : String)
    (input : tensor_ptr)
    (h : model.tensors.find (pfx ++ ".weight") = none
      ∨ model.tensors.find (pfx ++ ".bias") = none) :
    ((Linear_forward model pfx input).1 = .error .NullDeref
        ∨ (Linear_forward model pfx input).1 = .error .AssertFailed)
      ∧ (Linear_forward model pfx input).1 ≠ .error .KeyNotFound
      ∧ ∀ t, (Linear_forward model pfx input).1 ≠ .ok t := by
  have key : (Linear_forward model pfx input).1 = .error .NullDeref
      ∨ (Linear_forward model pfx input).1 = .error .AssertFailed := by
    rw [Linear_forward_fst]
    rcases h with hw | hb
    · rw [hw]
      left
      simp [ggml_mul_mat]
    · rw [hb]
      cases hm : ggml_mul_mat (model.tensors.find (pfx ++ ".weight")).join input with
      | ok mm => left; simp [ggml_add]
      | error e =>
        cases hwv : (model.tensors.find (pfx ++ ".weight")).join with
        | none => rw [hwv] at hm; simp [ggml_mul_mat] at hm; left; simp [← hm]
        | some w =>
          rw [hwv] at hm
          cases input with
          | none => simp [ggml_mul_mat] at hm; left; simp [← hm]
          | some x =>
            simp only [ggml_mul_mat] at hm
            split at hm
            · cases hm
            · right; cases hm; rfl
  refine ⟨key, ?_, ?_⟩
  · rcases key with k | k <;> rw [k] <;> simp
  · intro t
    rcases key with k | k <;> rw [k] <;> simp

/-- Witness for C7, at the empty registry. -/
theorem Linear_forward_missing_key_witness :
    (fairseq2_model_alloc.tensors.find ("l" ++ ".weight") = none
        ∨ fairseq2_model_alloc.tensors.find ("l" ++ ".bias") = none)
      ∧ (((Linear_forward fairseq2_model_alloc "l" none).1 = .error .NullDeref
          ∨ (Linear_forward fairseq2_model_alloc "l" none).1 = .error .AssertFailed)
        ∧ (Linear_forward fairseq2_model_alloc "l" none).1 ≠ .error .KeyNotFound
        ∧ ∀ t, (Linear_forward fairseq2_model_alloc "l" none).1 ≠ .ok t) :=
  ⟨Or.inl rfl, Linear_forward_missing_key fairseq2_model_alloc "l" none (Or.inl rfl)⟩

/-- C7 (counterexample): at the empty registry `Linear_forward` with prefix "l" ends in
a null dereference inside the kernel engine, not in `KeyNotFound`. -/
theorem Linear_forward_no_KeyNotFound :
    fairseq2_model_alloc.tensors.find "l.weight" = none
      ∧ (Linear_forward fairseq2_model_alloc "l"
          (some (.new_tensor 0 ⟨1, 1, 1, 1⟩))).1 = .error .NullDeref
      ∧ (Linear_forward fairseq2_model_alloc "l"
          (some (.new_tensor 0 ⟨1, 1, 1, 1⟩))).1 ≠ .error .KeyNotFound := by
  refine ⟨rfl, rfl, ?_⟩
  intro h
  cases h

/-- C8 (counterexample): at the empty registry, `Linear_forward` with prefix "l" leaves
a registry that has the keys "l.weight" and "l.bias" (bound to null handles), so the
registry after the call differs from the registry before it. -/
theorem Linear_forward_inserts_missing_keys :
    fairseq2_model_alloc.tensors.find "l.weight" = none
      ∧ (Linear_forward fairseq2_model_alloc "l"
          (some (.new_tensor 0 ⟨1, 1, 1, 1⟩))).2.tensors.find "l.weight" = some none
      ∧ (Linear_forward fairseq2_model_alloc "l"
          (some (.new_tensor 0 ⟨1, 1, 1, 1⟩))).2.tensors.find "l.bias" = some none
      ∧ (Linear_forward fairseq2_model_alloc "l"
          (some (.new_tensor 0 ⟨1, 1, 1, 1⟩))).2.tensors ≠ fairseq2_model_alloc.tensors := by
  refine ⟨rfl, by decide, by decide, ?_⟩
  intro h
  have h1 := congrArg (fun r => Registry.find r "l.weight") h
  revert h1
  decide

/-- C8 (as amended): when `pfx + ".weight"` and `pfx + ".bias"` are both registered,
the registry after `Linear_forward` equals the registry before it. -/
theorem Linear_forward_registry_frame (model : fairseq2_model) (pfx : String)
    (input : tensor_ptr)
    (hw : (model.tensors.find (pfx ++ ".weight")).isSome = true)
    (hb : (model.tensors.find (pfx ++ ".bias")).isSome = true) :
    (Linear_forward model pfx input).2.tensors = model.tensors := by
  rw [Linear_forward_snd, Registry.index_snd_of_registered _ _ hw,
    Registry.index_snd_of_registered _ _ hb]

/-- Witness for C8: a registry holding "l.weight" and "l.bias". -/
theorem Linear_forward_registry_frame_witness :
    ((((Registry.empty.assign "l.weight" (some (.new_tensor 0 ⟨1, 1, 1, 1⟩))).assign
          "l.bias" (some (.new_tensor 1 ⟨1, 1, 1, 1⟩))).find ("l" ++ ".weight")).isSome = true)
      ∧ ((((Registry.empty.assign "l.weight" (some (.new_tensor 0 ⟨1, 1, 1, 1⟩))).assign
          "l.bias" (some (.new_tensor 1 ⟨1, 1, 1, 1⟩))).find ("l" ++ ".bias")).isSome = true)
      ∧ (Linear_forward
          { ctx := ⟨2⟩,
            tensors := (Registry.empty.assign "l.weight"
              (some (.new_tensor 0 ⟨1, 1, 1, 1⟩))).assign
              "l.bias" (some (.new_tensor 1 ⟨1, 1, 1, 1⟩)) }
          "l" none).2.tensors
        = (Registry.empty.assign "l.weight" (some (.new_tensor 0 ⟨1, 1, 1, 1⟩))).assign
              "l.bias" (some (.new_tensor 1 ⟨1, 1, 1, 1⟩)) :=
  ⟨by decide, by decide,
   Linear_forward_registry_frame
    { ctx := ⟨2⟩,
      tensors := (Registry.empty.assign "l.weight" (some (.new_tensor 0 ⟨1, 1, 1, 1⟩))).assign
        "l.bias" (some (.new_tensor 1 ⟨1, 1, 1, 1⟩)) }
    "l" none (by decide) (by decide)⟩

/-- Whatever the registry holds, a key registered before `Linear_forward` keeps its
binding: the call can only add keys. -/
theorem Linear_forward_keeps_bindings (model : fairseq2_model) (pfx : String)
    (input : tensor_ptr) (k : String) (v : tensor_ptr)
    (hk : model.tensors.find k = some v) :
    (Linear_forward model pfx input).2.tensors.find k = some v := by
  rw [Linear_forward_snd]
  exact Registry.index_snd_keeps _ _ _ _ (Registry.index_snd_keeps _ _ _ _ hk)

theorem Linear_forward_snd_join (model : fairseq2_model) (pfx : String)
    (input : tensor_ptr) (k : String) :
    ((Linear_forward model pfx input).2.tensors.find k).join
      = (model.tensors.find k).join := by
  rw [Linear_forward_snd, Registry.index_snd_join, Registry.index_snd_join]

theorem Linear_forward_snd_other (model : fairseq2_model) (pfx : String)
    (input : tensor_ptr) (k : String) (hw : k ≠ pfx ++ ".weight")
    (hb : k ≠ pfx ++ ".bias") :
    (Linear_forward model pfx input).2.tensors.find k = model.tensors.find k := by
  rw [Linear_forward_snd, Registry.index_snd_other _ _ _ hb,
    Registry.index_snd_other _ _ _ hw]

theorem Registry.index_snd_self (m : Registry) (k : String) :
    ((m.index k).2.find k).isSome = true := by
  unfold Registry.index Registry.find
  cases h : m k with
  | some v => simp [h]
  | none => simp [Registry.assign]

theorem Registry.index_snd_mono (m : Registry) (k k1 : String)
    (h : (m.find k1).isSome = true) : ((m.index k).2.find k1).isSome = true := by
  cases hv : m.find k1 with
  | none => simp [hv] at h
  | some v => simp [Registry.index_snd_keeps m k k1 v hv]

/-- The keys `Linear_forward` indexes are those of `Linear_forward_keys`: they are
registered after the call, and no other key is touched. -/
theorem Linear_forward_reads_keys (model : fairseq2_model) (pfx : String)
    (input : tensor_ptr) :
    (∀ k ∈ Linear_forward_keys pfx,
        ((Linear_forward model pfx input).2.tensors.find k).isSome = true)
      ∧ ∀ k, k ∉ Linear_forward_keys pfx →
        (Linear_forward model pfx input).2.tensors.find k = model.tensors.find k := by
  constructor
  · intro k hk
    simp only [Linear_forward_keys, List.mem_cons, List.mem_singleton, List.not_mem_nil,
      or_false] at hk
    rw [Linear_forward_snd]
    rcases hk with rfl | rfl
    · exact Registry.index_snd_mono _ _ _ (Registry.index_snd_self _ _)
    · exact Registry.index_snd_self _ _
  · intro k hk
    simp only [Linear_forward_keys, List.mem_cons, List.mem_singleton, List.not_mem_nil,
      or_false, not_or] at hk
    exact Linear_forward_snd_other model pfx input k hk.1 hk.2

theorem Linear_forward_fst_congr (m1 m2 : fairseq2_model) (pfx : String)
    (input : tensor_ptr)
    (h : ∀ k, (m1.tensors.find k).join = (m2.tensors.find k).join) :
    (Linear_forward m1 pfx input).1 = (Linear_forward m2 pfx input).1 := by
  rw [Linear_forward_fst, Linear_forward_fst, h, h]

/-! ## Linear_init -/

/-- The weight created by `Linear_init` has extents `[output_dim, input_dim]`. -/
theorem Linear_init_weight (self : Linear) (model : fairseq2_model) (pfx : String)
    (input_dim output_dim : Int) (bias : Bool) :
    (Linear_init self model pfx input_dim output_dim bias).1.weight
      = some (.new_tensor model.ctx.n_objects ⟨output_dim, input_dim, 1, 1⟩) := by
  cases bias <;> simp [Linear_init, ggml_new_tensor_2d, ggml_new_tensor_1d]

theorem Linear_init_ctx (self : Linear) (model : fairseq2_model) (pfx : String)
    (input_dim output_dim : Int) :
    (Linear_init self model pfx input_dim output_dim true).2.ctx.n_objects
      = model.ctx.n_objects + 2 := by
  simp [Linear_init, ggml_new_tensor_2d, ggml_new_tensor_1d]

theorem Linear_init_find_weight (self : Linear) (model : fairseq2_model) (pfx : String)
    (input_dim output_dim : Int) (bias : Bool) :
    (Linear_init self model pfx input_dim output_dim bias).2.tensors.find (pfx ++ ".weight")
      = some (Linear_init self model pfx input_dim output_dim bias).1.weight := by
  have hne : pfx ++ ".weight" ≠ pfx ++ ".inner_proj.bias" :=
    key_append_ne pfx _ _ (by decide)
  cases bias
  · simp [Linear_init, Registry.assign_same]
  · simp [Linear_init, Registry.assign_same, Registry.assign_other _ _ _ _ hne]

theorem Linear_init_find_other (self : Linear) (model : fairseq2_model) (pfx : String)
    (input_dim output_dim : Int) (bias : Bool) (k : String)
    (hw : k ≠ pfx ++ ".weight") (hb : k ≠ pfx ++ ".inner_proj.bias") :
    (Linear_init self model pfx input_dim output_dim bias).2.tensors.find k
      = model.tensors.find k := by
  cases bias
  · simp [Linear_init, Registry.assign_other _ _ _ _ hw]
  · simp [Linear_init, Registry.assign_other _ _ _ _ hw, Registry.assign_other _ _ _ _ hb]

/-! ## MultiheadAttention_init -/

/-- C2: at the empty registry, after `MultiheadAttention_init` with prefix "a",
`model_dim = 4`, `num_heads = 2` (2 divides 4), of the eight keys the forward pass
reads only the three ".weight" keys of `q_proj`, `k_proj`, `v_proj` are registered: the
three ".bias" keys and both `output_proj` keys are absent. -/
theorem MultiheadAttention_init_leaves_forward_keys_unregistered :
    MultiheadAttention_forward_keys "a"
        = ["a.q_proj.weight", "a.q_proj.bias", "a.k_proj.weight", "a.k_proj.bias",
           "a.v_proj.weight", "a.v_proj.bias", "a.output_proj.weight", "a.output_proj.bias"]
      ∧ ∃ r, MultiheadAttention_init
            ⟨⟨none, none⟩, ⟨none, none⟩, ⟨none, none⟩, none, none, ⟨none, none⟩⟩
            fairseq2_model_alloc "a" 4 2 = .ok r
          ∧ (MultiheadAttention_forward_keys "a").map (fun k => (r.2.tensors.find k).isSome)
            = [true, false, true, false, true, false, false, false] := by
  refine ⟨by decide, _, rfl, ?_⟩
  decide

/-- C9 (counterexample): with `model_dim = 3` and `num_heads = 2` (2 does not divide 3)
`MultiheadAttention_init` returns normally, having registered among others
"a.k_proj.weight" with innermost extent `(3 / 2) * 2 = 2`; it does not end in
`ShapeMismatch`. -/
theorem MultiheadAttention_init_truncates :
    ¬ ((2 : Int) ∣ 3)
      ∧ (∃ r, MultiheadAttention_init
            ⟨⟨none, none⟩, ⟨none, none⟩, ⟨none, none⟩, none, none, ⟨none, none⟩⟩
            fairseq2_model_alloc "a" 3 2 = .ok r
          ∧ r.2.tensors.find "a.k_proj.weight" = some (some (.new_tensor 2 ⟨2, 3, 1, 1⟩))
          ∧ r.2.tensors.find "a.q_proj.weight" = some (some (.new_tensor 0 ⟨3, 3, 1, 1⟩)))
      ∧ MultiheadAttention_init
            ⟨⟨none, none⟩, ⟨none, none⟩, ⟨none, none⟩, none, none, ⟨none, none⟩⟩
            fairseq2_model_alloc "a" 3 2 ≠ .error .ShapeMismatch := by
  refine ⟨by decide, ⟨_, rfl, by decide, by decide⟩, ?_⟩
  intro h
  cases h

/-- For a non-negative dividend and a positive divisor that does not divide it, the
truncated quotient times the divisor falls short of the dividend. -/
theorem tdiv_mul_lt_of_not_dvd (m n : Int) (hm : 0 ≤ m) (hn : 0 < n) (hnd : ¬ n ∣ m) :
    0 ≤ Int.tdiv m n * n ∧ Int.tdiv m n * n < m := by
  rw [Int.tdiv_eq_ediv hm (by omega)]
  have h1 := Int.emod_add_ediv m n
  have h2 := Int.emod_nonneg m (by omega : n ≠ 0)
  have h3 : m % n ≠ 0 := fun h => hnd (Int.dvd_of_emod_eq_zero h)
  have h4 : m / n * n = n * (m / n) := Int.mul_comm _ _
  have h5 : 0 ≤ m / n := Int.ediv_nonneg hm (by omega)
  have h6 : 0 ≤ m / n * n := Int.mul_nonneg h5 (by omega)
  omega

/-- C9 (as amended): for every `model_dim` (an `int`) and positive `num_heads` below
`model_dim` such that `num_heads` does not divide `model_dim`,
`MultiheadAttention_init` does not end in `ShapeMismatch`: it makes no divisibility
check and returns normally, having computed `head_dim` by truncating integer division,
created the tensors and registered the `q_proj`, `k_proj` and `v_proj` weights under
their ".weight" keys; the `k_proj` weight holds `head_dim * num_heads * model_dim`
elements, fewer than `model_dim * model_dim`. -/
theorem MultiheadAttention_init_no_divisibility_check (self : MultiheadAttention)
    (model : fairseq2_model) (pfx : String) (model_dim num_heads : Int)
    (hpos : 0 < num_heads) (hlt : num_heads < model_dim) (hint : model_dim < 2 ^ 31)
    (hnd : ¬ num_heads ∣ model_dim) :
    MultiheadAttention_init self model pfx model_dim num_heads ≠ .error .ShapeMismatch
      ∧ ∃ r, MultiheadAttention_init self model pfx model_dim num_heads = .ok r
        ∧ r.2.tensors.find (pfx ++ ".q_proj" ++ ".weight") = some r.1.q_proj.weight
        ∧ r.2.tensors.find (pfx ++ ".k_proj" ++ ".weight") = some r.1.k_proj.weight
        ∧ r.2.tensors.find (pfx ++ ".v_proj" ++ ".weight") = some r.1.v_proj.weight
        ∧ r.1.q_proj.weight.isSome = true ∧ r.1.v_proj.weight.isSome = true
        ∧ ∃ w, r.1.k_proj.weight = some w
          ∧ w.ne.ne0 * w.ne.ne1 * w.ne.ne2 * w.ne.ne3
              = Int.tdiv model_dim num_heads * num_heads * model_dim
          ∧ w.ne.ne0 * w.ne.ne1 * w.ne.ne2 * w.ne.ne3 < model_dim * model_dim := by
  have hne : num_heads ≠ 0 := by omega
  have hm0 : 0 < model_dim := by omega
  obtain ⟨hq0, hqlt⟩ := tdiv_mul_lt_of_not_dvd model_dim num_heads (by omega) hpos hnd
  have hwrap : wrap_int32 (Int.tdiv model_dim num_heads * num_heads)
      = Int.tdiv model_dim num_heads * num_heads :=
    wrap_int32_of_range _ (by omega) (by omega)
  have hok : ∃ r, MultiheadAttention_init self model pfx model_dim num_heads = .ok r
      ∧ r.2.tensors.find (pfx ++ ".q_proj" ++ ".weight") = some r.1.q_proj.weight
      ∧ r.2.tensors.find (pfx ++ ".k_proj" ++ ".weight") = some r.1.k_proj.weight
      ∧ r.2.tensors.find (pfx ++ ".v_proj" ++ ".weight") = some r.1.v_proj.weight
      ∧ r.1.q_proj.weight.isSome = true ∧ r.1.v_proj.weight.isSome = true
      ∧ r.1.k_proj.weight = some (.new_tensor (model.ctx.n_objects + 2)
          ⟨wrap_int32 (Int.tdiv model_dim num_heads * num_heads), model_dim, 1, 1⟩) := by
    refine ⟨_, by simp only [MultiheadAttention_init, if_neg hne]; rfl, ?_, ?_, ?_, ?_, ?_, ?_⟩
    · show (Linear_init _ _ _ _ _ _).2.tensors.find _ = some (Linear_init _ _ _ _ _ _).1.weight
      rw [Linear_init_find_other _ _ _ _ _ _ _
            (key_append_ne2 pfx _ _ _ _ (by decide)) (key_append_ne2 pfx _ _ _ _ (by decide)),
        Linear_init_find_other _ _ _ _ _ _ _
            (key_append_ne2 pfx _ _ _ _ (by decide)) (key_append_ne2 pfx _ _ _ _ (by decide)),
        Linear_init_find_weight]
    · show (Linear_init _ _ _ _ _ _).2.tensors.find _ = some (Linear_init _ _ _ _ _ _).1.weight
      rw [Linear_init_find_other _ _ _ _ _ _ _
            (key_append_ne2 pfx _ _ _ _ (by decide)) (key_append_ne2 pfx _ _ _ _ (by decide)),
        Linear_init_find_weight]
    · show (Linear_init _ _ _ _ _ _).2.tensors.find _ = some (Linear_init _ _ _ _ _ _).1.weight
      rw [Linear_init_find_weight]
    · show (Linear_init _ _ _ _ _ _).1.weight.isSome = true
      rw [Linear_init_weight]
      rfl
    · show (Linear_init _ _ _ _ _ _).1.weight.isSome = true
      rw [Linear_init_weight]
      rfl
    · show (Linear_init _ _ _ _ _ _).1.weight = _
      rw [Linear_init_weight, Linear_init_ctx]
  obtain ⟨r, hr, hq, hk, hv, hqs, hvs, hkw⟩ := hok
  refine ⟨?_, r, hr, hq, hk, hv, hqs, hvs, _, hkw, ?_, ?_⟩
  · rw [hr]
    intro h
    cases h
  · simp only [ggml_tensor.ne, hwrap]
    ring
  · simp only [ggml_tensor.ne, hwrap]
    nlinarith

/-- Witness for C9: `model_dim = 7`, `num_heads = 2`, at the empty registry. -/
theorem MultiheadAttention_init_no_divisibility_check_witness :
    (0 : Int) < 2 ∧ (2 : Int) < 7 ∧ (7 : Int) < 2 ^ 31 ∧ ¬ ((2 : Int) ∣ 7)
      ∧ (MultiheadAttention_init
          ⟨⟨none, none⟩, ⟨none, none⟩, ⟨none, none⟩, none, none, ⟨none, none⟩⟩
          fairseq2_model_alloc "a" 7 2 ≠ .error .ShapeMismatch
        ∧ ∃ r, MultiheadAttention_init
            ⟨⟨none, none⟩, ⟨none, none⟩, ⟨none, none⟩, none, none, ⟨none, none⟩⟩
            fairseq2_model_alloc "a" 7 2 = .ok r
          ∧ r.2.tensors.find ("a" ++ ".q_proj" ++ ".weight") = some r.1.q_proj.weight
          ∧ r.2.tensors.find ("a" ++ ".k_proj" ++ ".weight") = some r.1.k_proj.weight
          ∧ r.2.tensors.find ("a" ++ ".v_proj" ++ ".weight") = some r.1.v_proj.weight
          ∧ r.1.q_proj.weight.isSome = true ∧ r.1.v_proj.weight.isSome = true
          ∧ ∃ w, r.1.k_proj.weight = some w
            ∧ w.ne.ne0 * w.ne.ne1 * w.ne.ne2 * w.ne.ne3 = Int.tdiv 7 2 * 2 * 7
            ∧ w.ne.ne0 * w.ne.ne1 * w.ne.ne2 * w.ne.ne3 < 7 * 7) :=
  ⟨by decide, by decide, by decide, by decide,
    MultiheadAttention_init_no_divisibility_check
      ⟨⟨none, none⟩, ⟨none, none⟩, ⟨none, none⟩, none, none, ⟨none, none⟩⟩
      fairseq2_model_alloc "a" 7 2 (by decide) (by decide) (by decide) (by decide)⟩

/-! ## LayerNorm_forward and StandardFeedForwardNetwork_forward -/

theorem LayerNorm_forward_snd (model : fairseq2_model) (pfx : String)
    (input : tensor_ptr) :
    (LayerNorm_forward model pfx input).2.tensors =
      ((model.tensors.index (pfx ++ ".weight")).2.index (pfx ++ ".bias")).2 := by
  simp only [LayerNorm_forward]

theorem LayerNorm_forward_snd_join (model : fairseq2_model) (pfx : String)
    (input : tensor_ptr) (k : String) :
    ((LayerNorm_forward model pfx input).2.tensors.find k).join
      = (model.tensors.find k).join := by
  rw [LayerNorm_forward_snd, Registry.index_snd_join, Registry.index_snd_join]

theorem LayerNorm_forward_fst_congr (m1 m2 : fairseq2_model) (pfx : String)
    (input : tensor_ptr)
    (h : ∀ k, (m1.tensors.find k).join = (m2.tensors.find k).join) :
    (LayerNorm_forward m1 pfx input).1 = (LayerNorm_forward m2 pfx input).1 := by
  simp only [LayerNorm_forward, Registry.index_fst, Registry.index_snd_join, h]

/-- C5: the outcome of `StandardFeedForwardNetwork_forward(model, pfx, x)` is the
composition, each call read against the registry of `model`, of the inner projection,
the rectified-linear activation, the inner layer normalisation and the output
projection when the key `pfx + ".inner_layer_norm.weight"` is registered, and the same
composition without the layer normalisation when that key is absent. -/
theorem StandardFeedForwardNetwork_forward_eq (model : fairseq2_model) (pfx : String)
    (x : tensor_ptr) :
    (StandardFeedForwardNetwork_forward model pfx x).1 =
      if (model.tensors.find (pfx ++ ".inner_layer_norm.weight")).isSome then
        (Linear_forward model (pfx ++ ".inner_proj") x).1 >>= fun a =>
        ggml_relu (some a) >>= fun r =>
        (LayerNorm_forward model (pfx ++ ".inner_layer_norm") (some r)).1 >>= fun n =>
        (Linear_forward model (pfx ++ ".output_proj") (some n)).1
      else
        (Linear_forward model (pfx ++ ".inner_proj") x).1 >>= fun a =>
        ggml_relu (some a) >>= fun r =>
        (Linear_forward model (pfx ++ ".output_proj") (some r)).1 := by
  have hj : ∀ k, ((Linear_forward model (pfx ++ ".inner_proj") x).2.tensors.find k).join
      = (model.tensors.find k).join := Linear_forward_snd_join model _ x
  have hp : (Linear_forward model (pfx ++ ".inner_proj") x).2.tensors.find
        (pfx ++ ".inner_layer_norm.weight")
      = model.tensors.find (pfx ++ ".inner_layer_norm.weight") :=
    Linear_forward_snd_other model _ x _
      (Ne.symm (key_append_ne3 pfx _ _ _ (by decide)))
      (Ne.symm (key_append_ne3 pfx _ _ _ (by decide)))
  unfold StandardFeedForwardNetwork_forward
  rcases h1 : Linear_forward model (pfx ++ ".inner_proj") x with ⟨r1, m1⟩
  rw [h1] at hj hp
  simp only at hj hp
  cases r1 with
  | error e => simp [bind, Except.bind]
  | ok seqs1 =>
    simp only [ggml_relu, hp, bind, Except.bind]
    by_cases hpres : (model.tensors.find (pfx ++ ".inner_layer_norm.weight")).isSome = true
    · simp only [hpres, if_true]
      have hln : (LayerNorm_forward m1 (pfx ++ ".inner_layer_norm")
            (some (ggml_tensor.relu seqs1))).1
          = (LayerNorm_forward model (pfx ++ ".inner_layer_norm")
            (some (ggml_tensor.relu seqs1))).1 :=
        LayerNorm_forward_fst_congr m1 model _ _ hj
      have hj2 : ∀ k, ((LayerNorm_forward m1 (pfx ++ ".inner_layer_norm")
            (some (ggml_tensor.relu seqs1))).2.tensors.find k).join
          = (model.tensors.find k).join := by
        intro k
        rw [LayerNorm_forward_snd_join, hj]
      rcases h2 : LayerNorm_forward m1 (pfx ++ ".inner_layer_norm")
          (some (ggml_tensor.relu seqs1)) with ⟨r2, m2⟩
      rw [h2] at hln hj2
      simp only at hln hj2
      rw [← hln]
      cases r2 with
      | error e => rfl
      | ok seqs3 =>
        exact Linear_forward_fst_congr m2 model _ _ hj2
    · simp only [hpres]
      exact Linear_forward_fst_congr m1 model _ _ hj

/-! ## Head split and merge -/

/-- Dividing twice is dividing by the product, for non-negative divisors. -/
theorem ediv_ediv_of_nonneg (m n k : Int) (hn : 0 ≤ n) (hk : 0 ≤ k) :
    m / n / k = m / (n * k) := by
  rcases hn.eq_or_lt with hn0 | hn0
  · subst hn0; simp
  rcases hk.eq_or_lt with hk0 | hk0
  · subst hk0; simp
  have hnk : 0 < n * k := Int.mul_pos hn0 hk0
  apply le_antisymm
  · rw [Int.le_ediv_iff_mul_le hnk]
    have h1 : m / n / k * k ≤ m / n := (Int.le_ediv_iff_mul_le hk0).1 (le_refl _)
    have h2 : m / n / k * k * n ≤ m := (Int.le_ediv_iff_mul_le hn0).1 h1
    calc m / n / k * (n * k) = m / n / k * k * n := by ring
      _ ≤ m := h2
  · rw [Int.le_ediv_iff_mul_le hk0, Int.le_ediv_iff_mul_le hn0]
    have h1 : m / (n * k) * (n * k) ≤ m := (Int.le_ediv_iff_mul_le hnk).1 (le_refl _)
    calc m / (n * k) * k * n = m / (n * k) * (n * k) := by ring
      _ ≤ m := h1

/-- An offset is recovered from its digits in the mixed radix `(a, b, c)`. -/
theorem mixed_radix (off a b c : Int) (ha : 0 ≤ a) (hb : 0 ≤ b) (hc : 0 ≤ c) :
    off % a * 1 + off / a % b * a + off / (a * b) % c * (a * b)
      + off / (a * b * c) * (a * b * c) = off := by
  have h1 := Int.emod_add_ediv off a
  have h2 := Int.emod_add_ediv (off / a) b
  have h3 := Int.emod_add_ediv (off / a / b) c
  have e1 : off / a / b = off / (a * b) := ediv_ediv_of_nonneg off a b ha hb
  have e2 : off / (a * b) / c = off / (a * b * c) :=
    ediv_ediv_of_nonneg off (a * b) c (Int.mul_nonneg ha hb) hc
  rw [e1] at h2 h3
  rw [e2] at h3
  linear_combination h1 + a * h2 + a * b * h3

/-- On a packed two-dimensional tensor whose extents fit an `int`, the head split
followed by the head merge gives the tensor back. -/
theorem head_split_merge_eq {α : Type} (data : Int → α) (S H hd : Int)
    (hS0 : 0 ≤ S) (hS : S < 2 ^ 31) (hd0 : 0 ≤ hd) (hD : H * hd < 2 ^ 31) (hH : 0 < H) :
    head_split_merge (packed_2d (H * hd) S data) H = .ok (packed_2d (H * hd) S data) := by
  have hne : H ≠ 0 := by omega
  have hhd : hd ≤ H * hd := by nlinarith
  have hD0 : 0 ≤ H * hd := Int.mul_nonneg (by omega) hd0
  have hwS : wrap_int32 S = S := wrap_int32_of_range S (by omega) hS
  have hwD : wrap_int32 (H * hd) = H * hd := wrap_int32_of_range _ (by omega) hD
  have hwh : wrap_int32 hd = hd := wrap_int32_of_range _ (by omega) (by omega)
  have hdiv : Int.tdiv (H * hd) H = hd := Int.mul_tdiv_cancel_left hd hne
  have hcomm : hd * H * S = H * hd * S := by ring
  simp only [head_split_merge, reshape_num_head, MultiheadAttention_forward_merge,
    packed_2d, if_neg hne, hwS, hwD, hwh, hdiv, ggml_reshape_3d, ggml_reshape_2d,
    ggml_permute, ggml_cont, ggml_is_contiguous, ggml_nelements, contiguous_strides,
    Extents.set, strided_tensor.get]
  simp [hcomm]
  funext off
  congr 1
  have h := mixed_radix off hd H S hd0 (by omega) hS0
  rw [hcomm] at h
  linear_combination h

/-- C6 (as amended): for every packed tensor `x` of extents `(S, D)` (that is
`ne = [D, S, 1, 1]`) with `S` and `D` below `2^31`, and every positive `H` dividing
`D`, the head split `reshape_num_head(x, H)` followed by the head merge of the
attention forward pass succeeds and yields a tensor with the extents of `x` and, at
every index, the value `x` has there. -/
theorem head_split_merge_roundtrip {α : Type} (x : strided_tensor α) (S D H : Int)
    (hne : x.ne = ⟨D, S, 1, 1⟩) (hc : ggml_is_contiguous x = true)
    (hS0 : 0 ≤ S) (hS : S < 2 ^ 31) (hD0 : 0 ≤ D) (hD : D < 2 ^ 31)
    (hH : 0 < H) (hdiv : H ∣ D) :
    ∃ y, head_split_merge x H = .ok y ∧ y.ne = x.ne
      ∧ ∀ i0 i1 i2 i3 : Int, y.get i0 i1 i2 i3 = x.get i0 i1 i2 i3 := by
  obtain ⟨hd, rfl⟩ := hdiv
  have hd0 : 0 ≤ hd := by
    by_contra hneg
    have : H * hd < 0 := Int.mul_neg_of_pos_of_neg hH (by omega)
    omega
  have hx : x = packed_2d (H * hd) S x.data := by
    obtain ⟨ne, nb, data⟩ := x
    obtain ⟨nb0, nb1, nb2, nb3⟩ := nb
    simp only at hne
    subst hne
    simp only [ggml_is_contiguous, Bool.and_eq_true, decide_eq_true_eq] at hc
    obtain ⟨⟨⟨h0, h1⟩, h2⟩, h3⟩ := hc
    subst h0
    subst h1
    subst h2
    subst h3
    simp [packed_2d, contiguous_strides]
  refine ⟨x, ?_, rfl, fun _ _ _ _ => rfl⟩
  rw [hx]
  exact head_split_merge_eq x.data S H hd hS0 hS hd0 hD hH

/-- Witness for C6: the packed tensor of extents `(3, 4)` whose buffer holds its own
offsets, split into 2 heads. -/
theorem head_split_merge_roundtrip_witness :
    ggml_is_contiguous (packed_2d 4 3 (fun i : Int => i)) = true ∧ (2 : Int) ∣ 4
      ∧ ∃ y, head_split_merge (packed_2d 4 3 (fun i : Int => i)) 2 = .ok y
        ∧ y.ne = (packed_2d 4 3 (fun i : Int => i)).ne
        ∧ ∀ i0 i1 i2 i3 : Int,
          y.get i0 i1 i2 i3 = (packed_2d 4 3 (fun i : Int => i)).get i0 i1 i2 i3 :=
  ⟨by decide, by decide,
    head_split_merge_roundtrip (packed_2d 4 3 (fun i : Int => i)) 3 4 2 rfl (by decide)
      (by decide) (by decide) (by decide) (by decide) (by decide) (by decide)⟩

/-- C6 (counterexample): the round trip stops on an assertion of the first reshape, and
yields no tensor, (a) for the packed tensor of extents `(2^31, 1)` with one head, whose
row count does not fit the `int` local `slen`, and (b) for the transposed (not packed)
view of a 2 x 2 tensor with one head. -/
theorem head_split_merge_fails :
    head_split_merge (packed_2d 1 (2 ^ 31) (fun i : Int => i)) 1 = .error .AssertFailed
      ∧ head_split_merge
          ({ ne := ⟨2, 2, 1, 1⟩, nb := ⟨2, 1, 4, 4⟩, data := fun i => i } : strided_tensor Int) 1
        = .error .AssertFailed := by
  constructor <;> rfl

end Fairseq2
